import Mathlib

/-!
Shallow embedding of the DV360 bulk-management Apps Script core
(`src/01_dv360.js`, `src/02_dv360_entities.gs`, `src/06_dv360_sheet.gs`,
`src/07_sheet_util.js`).

JavaScript strings are modelled as lists of characters, JavaScript objects as
association lists of own properties in insertion order (keys are unique), and
JavaScript reference identity of objects and arrays as an explicit allocation
identifier carried by the value.  The HTTP transport (`UrlFetchApp`) is
modelled as an oracle mapping each request to either a parsed JSON body or a
thrown error message; each `executeApi*Request` call is recorded in a request
trace.  Paged responses (`nextPageToken`) are not exercised by the verified
flows and a request here yields a single page.
-/

/-- JS strings, modelled as lists of characters. -/
abbrev JSString := List Char

/-- Embeds a Lean string literal into the JS string model. -/
def js (s : String) : JSString := s.toList

/-- JS runtime values.  `obj` and `arr` carry an allocation identifier that
models reference identity: two structurally equal objects created by distinct
allocations are different references, which is observable through the `==`,
`===` and `!=` operators of the source. -/
inductive JValue : Type where
  | undefined : JValue
  | nullv : JValue
  | boolv : Bool → JValue
  | num : Int → JValue
  | str : JSString → JValue
  | obj : Nat → List (JSString × JValue) → JValue
  | arr : Nat → List JValue → JValue

/-- A JS object is its list of own properties, in insertion order. -/
abbrev JSObj := List (JSString × JValue)

/-- Own-property read `o[key]`: `undefined` when the key is absent. -/
def objLookup : JSObj → JSString → JValue
  | [], _ => .undefined
  | (k, v) :: rest, key => if k = key then v else objLookup rest key

/-- Property write `o[key] = v`: overwrites in place, or appends a new own
property (JS objects keep insertion order for string keys). -/
def objSet : JSObj → JSString → JValue → JSObj
  | [], key, v => [(key, v)]
  | (k, w) :: rest, key, v =>
      if k = key then (k, v) :: rest else (k, w) :: objSet rest key v

/-- Property removal `delete o[key]`. -/
def removeKey : JSObj → JSString → JSObj
  | [], _ => []
  | (k, v) :: rest, key =>
      if k = key then removeKey rest key else (k, v) :: removeKey rest key

/-- Joins JS strings with `,` (the separator used by `Array.prototype.join`,
`Array.prototype.toString` and the patch-mask `join(',')`). -/
def joinCommaList (parts : List JSString) : JSString :=
  List.intercalate (js (",")) parts

/-- Decimal rendering of a JS number (the model restricts numbers to
integers, which covers every numeric value these scripts manipulate). -/
def intToString (n : Int) : JSString := (toString n).toList

mutual
/-- JS `ToString` coercion, as applied by string concatenation with `+` and
by `String.prototype.replace` to its replacement argument. -/
def toJSStringV : JValue → JSString
  | .undefined => js ("undefined")
  | .nullv => js ("null")
  | .boolv true => js ("true")
  | .boolv false => js ("false")
  | .num n => intToString n
  | .str s => s
  | .obj _ _ => js ("[object Object]")
  | .arr _ elems => joinCommaList (arrElemStrings elems)

/-- `Array.prototype.toString` renders `null` and `undefined` elements as
empty strings. -/
def arrElemStrings : List JValue → List JSString
  | [] => []
  | .undefined :: rest => [] :: arrElemStrings rest
  | .nullv :: rest => [] :: arrElemStrings rest
  | v :: rest => toJSStringV v :: arrElemStrings rest
end

/-- Escapes `"` and `\` (the only escape-worthy characters reachable from
the cell and entity data modelled here). -/
def escapeChars : JSString → JSString
  | [] => []
  | c :: rest =>
      if c = '"' ∨ c = '\\' then '\\' :: c :: escapeChars rest
      else c :: escapeChars rest

/-- A JSON string literal: quoted and escaped. -/
def jsonQuote (s : JSString) : JSString := '"' :: (escapeChars s ++ ['"'])

mutual
/-- `JSON.stringify`: `none` models the `undefined` result for an
`undefined` argument. -/
def jsonStringify : JValue → Option JSString
  | .undefined => none
  | .nullv => some (js ("null"))
  | .boolv true => some (js ("true"))
  | .boolv false => some (js ("false"))
  | .num n => some (intToString n)
  | .str s => some (jsonQuote s)
  | .obj _ fields =>
      some ((js ("\x7b")) ++ joinCommaList (jsonFieldEntries fields) ++ (js ("\x7d")))
  | .arr _ elems =>
      some ((js ("[")) ++ joinCommaList (jsonElemEntries elems) ++ (js ("]")))

/-- Object entries of `JSON.stringify`; properties holding `undefined` are
omitted. -/
def jsonFieldEntries : List (JSString × JValue) → List JSString
  | [] => []
  | (k, v) :: rest =>
      match jsonStringify v with
      | none => jsonFieldEntries rest
      | some s => (jsonQuote k ++ (js (":")) ++ s) :: jsonFieldEntries rest

/-- Array entries of `JSON.stringify`; `undefined` elements render as
`null`. -/
def jsonElemEntries : List JValue → List JSString
  | [] => []
  | v :: rest =>
      (match jsonStringify v with
       | none => js ("null")
       | some s => s) :: jsonElemEntries rest
end

/-- `JSON.stringify` of a top-level object (entities and targeting options
are always objects when serialized by the source). -/
def jsonStringifyObj (o : JSObj) : JSString :=
  (js ("\x7b")) ++ joinCommaList (jsonFieldEntries o) ++ (js ("\x7d"))

/-- All-digit parse used by `parseNum`. -/
def parseDigitsAux : Nat → List Char → Option Nat
  | acc, [] => some acc
  | acc, c :: rest =>
      if c.isDigit then parseDigitsAux (acc * 10 + (c.toNat - 48)) rest
      else none

/-- JS `ToNumber` on a string, restricted to the integral decimal strings the
modelled data can contain; `none` models NaN (and unmodelled forms such as
fractional, hexadecimal or padded input, which never compare equal to an
integer id in the verified flows). The empty string converts to 0. -/
def parseNum : JSString → Option Int
  | [] => some (0 : Int)
  | '-' :: rest =>
      match rest, parseDigitsAux 0 rest with
      | [], _ => none
      | _, some n => some (-(n : Int))
      | _, none => none
  | s => (parseDigitsAux 0 s).map (fun n => (n : Int))

/-- Loose comparison of a string against a number (`ToNumber` coercion). -/
def strLooseNum (s : JSString) (n : Int) : Bool :=
  match parseNum s with
  | some m => m == n
  | none => false

/-- JS loose equality `==` on the modelled values.  Objects and arrays
compare by reference (allocation identifier) against each other, and by their
primitive (string) form against primitives, as `ToPrimitive` prescribes. -/
def looseEq : JValue → JValue → Bool
  | .undefined, .undefined => true
  | .undefined, .nullv => true
  | .nullv, .undefined => true
  | .nullv, .nullv => true
  | .boolv a, .boolv b => a == b
  | .num a, .num b => a == b
  | .str a, .str b => a == b
  | .num n, .str s => strLooseNum s n
  | .str s, .num n => strLooseNum s n
  | .boolv b, .num n => (if b then (1 : Int) else 0) == n
  | .num n, .boolv b => n == (if b then (1 : Int) else 0)
  | .boolv b, .str s => strLooseNum s (if b then 1 else 0)
  | .str s, .boolv b => strLooseNum s (if b then 1 else 0)
  | .obj i _, .obj j _ => i == j
  | .arr i _, .arr j _ => i == j
  | .obj _ _, .str s => (js ("[object Object]")) == s
  | .str s, .obj _ _ => (js ("[object Object]")) == s
  | .arr _ es, .str s => joinCommaList (arrElemStrings es) == s
  | .str s, .arr _ es => joinCommaList (arrElemStrings es) == s
  | .arr _ es, .num n => strLooseNum (joinCommaList (arrElemStrings es)) n
  | .num n, .arr _ es => strLooseNum (joinCommaList (arrElemStrings es)) n
  | .arr _ es, .boolv b => strLooseNum (joinCommaList (arrElemStrings es)) (if b then 1 else 0)
  | .boolv b, .arr _ es => strLooseNum (joinCommaList (arrElemStrings es)) (if b then 1 else 0)
  | _, _ => false

/-- JS strict equality `===` (also the `SameValueZero` used by `Set`; the
model has no NaN). -/
def strictEq : JValue → JValue → Bool
  | .undefined, .undefined => true
  | .nullv, .nullv => true
  | .boolv a, .boolv b => a == b
  | .num a, .num b => a == b
  | .str a, .str b => a == b
  | .obj i _, .obj j _ => i == j
  | .arr i _, .arr j _ => i == j
  | _, _ => false

/-- JS falsiness, as tested by `response.createdAssignedTargetingOptions ||
[]`. -/
def isFalsy : JValue → Bool
  | .undefined => true
  | .nullv => true
  | .boolv b => !b
  | .num n => n == 0
  | .str s => s.isEmpty
  | _ => false

/-! ### `Util` (src/01_dv360.js) -/

/-- `Util.listFields` / `Object.getOwnPropertyNames`: the own property names
of an object, in insertion order. -/
def listFields (o : JSObj) : List JSString := o.map Prod.fst

/-- One step of `ob[segment]` with the source's `ob == null` guard: reading a
property of `null`/`undefined` (or of any non-object) yields `undefined`
here, exactly as `Util.getValueByDottedFieldName` returns `undefined` when
an intermediate value is nullish.  (Numeric indexing into arrays is never
performed by the source's dotted paths.) -/
def propGet (v : JValue) (key : JSString) : JValue :=
  match v with
  | .obj _ fields => objLookup fields key
  | _ => .undefined

/-- `Util.getValueByDottedFieldName`: splits the field name at dots and
descends; the source recurses on the first dot, which is the same fold. -/
def getValueByDottedFieldName (ob : JSObj) (fieldName : JSString) : JValue :=
  match List.splitOn '.' fieldName with
  | [] => .undefined
  | seg :: rest => rest.foldl propGet (objLookup ob seg)

/-- `Util.isIn`: membership by equality of `JSON.stringify` serializations
(the source filters and tests `length > 0`). -/
def isInJS (o : JSObj) (array : List JSObj) : Bool :=
  (array.filter (fun m => jsonStringifyObj m == jsonStringifyObj o)).length != 0

/-- `Util.difference`: elements of `left` not `isIn` `right`. -/
def differenceJS (left right : List JSObj) : List JSObj :=
  left.filter (fun o => !(isInJS o right))

/-! ### `ApiUtil` (src/01_dv360.js) -/

/-- The backquote character, U+0060. -/
def backtickChar : Char := Char.ofNat 96

/-- The `GetSubstitution` step of `String.prototype.replace` applied to the
replacement argument.  For a plain-string pattern there are no capture
groups, so exactly four escapes expand: `$$` to a dollar sign, `$&` to the
matched substring (the pattern itself), a dollar sign followed by a
backquote to the part of the string before the match, and a dollar sign
followed by a straight quote to the part after the match; every other
dollar sequence (such as `$1` or a named reference, with no captures to
refer to) stays literal. -/
def getSubstitution (matched before after : JSString) : JSString → JSString
  | [] => []
  | [c] => if c = '$' then ['$'] else [c]
  | c :: d :: rest2 =>
      if c = '$' then
        if d = '$' then '$' :: getSubstitution matched before after rest2
        else if d = '&' then matched ++ getSubstitution matched before after rest2
        else if d = backtickChar then before ++ getSubstitution matched before after rest2
        else if d = '\'' then after ++ getSubstitution matched before after rest2
        else '$' :: d :: getSubstitution matched before after rest2
      else c :: getSubstitution matched before after (d :: rest2)

/-- Scanner of `String.prototype.replace` with a plain-string pattern:
walks the string accumulating the consumed part in `before`, replaces the
FIRST occurrence of `pat` (an empty pattern matches at position 0) with the
replacement after `GetSubstitution`, and leaves the rest untouched. -/
def replaceFirstAux (pat rep : JSString) (before : JSString) : JSString → JSString
  | [] =>
      if pat.isPrefixOf ([] : JSString) then
        getSubstitution pat before (([] : JSString).drop pat.length) rep ++
          ([] : JSString).drop pat.length
      else []
  | c :: rest =>
      if pat.isPrefixOf (c :: rest) then
        getSubstitution pat before ((c :: rest).drop pat.length) rep ++
          (c :: rest).drop pat.length
      else c :: replaceFirstAux pat rep (before ++ [c]) rest

/-- `input.replace(pat, rep)` for a plain-string `pat`: replaces only the
first occurrence, applying `GetSubstitution` to the replacement. -/
def replaceFirst (pat rep s : JSString) : JSString := replaceFirstAux pat rep [] s

/-- The `'${' + name + '}'` pattern built by `ApiUtil.replaceInputValues`. -/
def placeholder (name : JSString) : JSString :=
  (js ("$\x7b")) ++ name ++ (js ("\x7d"))

/-- `ApiUtil.replaceInputValues`: for each entry of `params` in insertion
order, `output = output.replace('${' + name + '}', value)`.  The source's
`params == null` guard returns the input unchanged; every modelled call
passes an object. -/
def replaceInputValues (input : JSString) (params : JSObj) : JSString :=
  params.foldl (fun output p => replaceFirst (placeholder p.1) (toJSStringV p.2) output) input

/-! ### `DV360Entity.getPatchMask` (src/02_dv360_entities.gs, lines 54-64;
identically src/01_dv360.js, lines 450-461) -/

/-- `original.getPatchMask(modified)`: enumerates `modified`'s own property
names, filters out names loosely equal to `this.primaryIdField_` (a property
that exists on `DV360Resource` instances but NOT on `DV360Entity` instances,
so this read yields `undefined` on every entity) and the name `updateTime`,
keeps names whose values differ under loose `!=`, and joins with commas. -/
def getPatchMask (original modified : JSObj) : JSString :=
  joinCommaList
    ((((listFields modified).filter
          (fun field =>
            !(looseEq (.str field) (objLookup original (js ("primaryIdField_")))))).filter
        (fun field => !(looseEq (.str field) (.str (js ("updateTime")))))).filter
      (fun field =>
        !(looseEq (getValueByDottedFieldName modified field)
            (getValueByDottedFieldName original field))))

/-! ### `DV360Resource` (src/02_dv360_entities.gs) -/

/-- HTTP method of an `ApiUtil.executeApi*Request` call. -/
inductive HttpMethod : Type where
  | mGet : HttpMethod
  | mPost : HttpMethod
  | mPatch : HttpMethod
  | mDelete : HttpMethod
deriving DecidableEq

/-- Per-type grouped creation request built by
`LineItemTargetingOptions.createRequests_`. -/
structure CreateRequestGroup : Type where
  targetingType : JValue
  assignedTargetingOptions : List JSObj

/-- Per-type grouped deletion request built by
`LineItemTargetingOptions.deleteRequests`. -/
structure DeleteRequestGroup : Type where
  targetingType : JValue
  assignedTargetingOptionIds : List JValue

/-- Request body: either a plain entity object, or the
`{deleteRequests, createRequests}` payload of a bulk edit.  The transport
serializes it with `JSON.stringify` before sending. -/
inductive RequestBody : Type where
  | objectBody : JSObj → RequestBody
  | bulkBody : List DeleteRequestGroup → List CreateRequestGroup → RequestBody

/-- One HTTP request issued through `ApiUtil`. -/
structure HttpRequest : Type where
  method : HttpMethod
  uri : JSString
  body : Option RequestBody

/-- The transport oracle: parsed JSON body on a 2xx response, or the thrown
error message (`executeGenericRequest_` throws on non-2xx). -/
abbrev HttpOracle := HttpRequest → Except JSString JSObj

/-- The constructor state of a `DV360Resource`.  `primaryIdField_` is a
`JValue` because `Advertisers` calls `super` without a third argument,
leaving the field `undefined`. -/
structure ResourceCfg : Type where
  baseUri : JSString
  apiFieldName : JSString
  primaryIdField_ : JValue
  filterExpr : JSString

/-- `DV360Resource.getPrimaryId`: `entity[this.primaryIdField_]`; the
property key coerces through `ToString`, so an undefined `primaryIdField_`
reads the property literally named `undefined`. -/
def getPrimaryId (res : ResourceCfg) (entity : JSObj) : JValue :=
  objLookup entity (toJSStringV res.primaryIdField_)

/-- `DV360Resource.buildSingleEntityUri_`: `baseUri + '/' + primaryId`, then
placeholder substitution against the entity's own fields (the source's
`Object.assign({}, params)` copy only strips methods and is the identity
here). -/
def buildSingleEntityUri (res : ResourceCfg) (params : JSObj) : JSString :=
  replaceInputValues (res.baseUri ++ ['/'] ++ toJSStringV (getPrimaryId res params)) params

/-- `DV360Resource.buildCreateUri_`. -/
def buildCreateUri (res : ResourceCfg) (params : JSObj) : JSString :=
  replaceInputValues res.baseUri params

/-- `DV360Resource.buildPatchUri_`: single-entity URI plus
`?updateMask=<mask>`. -/
def buildPatchUri (res : ResourceCfg) (original modified : JSObj) : JSString :=
  buildSingleEntityUri res original ++ (js ("?updateMask=")) ++ getPatchMask original modified

/-- The GET request of `DV360Resource.get`. -/
def getRequestOf (res : ResourceCfg) (params : JSObj) : HttpRequest :=
  ⟨.mGet, buildSingleEntityUri res params, none⟩

/-- The PATCH request of `DV360Resource.update`: full `entity` as body. -/
def patchRequestOf (res : ResourceCfg) (original modified : JSObj) : HttpRequest :=
  ⟨.mPatch, buildPatchUri res original modified, some (.objectBody modified)⟩

/-- The POST request of `DV360Resource.create`: the body is the entity copy
with the property keyed by `this.primaryIdField_` (after `ToString` coercion
of that key) deleted.  The source's `Object.assign({}, entity)` shallow copy
exists only to avoid mutating the argument and is the identity in this pure
model. -/
def createRequestOf (res : ResourceCfg) (entity : JSObj) : HttpRequest :=
  ⟨.mPost, buildCreateUri res entity,
    some (.objectBody (removeKey entity (toJSStringV res.primaryIdField_)))⟩

/-- The DELETE request of `DV360Resource.delete`. -/
def deleteRequestOf (res : ResourceCfg) (entity : JSObj) : HttpRequest :=
  ⟨.mDelete, buildSingleEntityUri res entity, none⟩

/-- `DV360Resource.get`: one GET of the single-entity URI, response converted
by the kind-specific `convertObjectToEntity` (passed as `conv`).  Returns the
result together with the issued request trace. -/
def runGet (conv : JSObj → JSObj) (res : ResourceCfg) (oracle : HttpOracle)
    (params : JSObj) : Except JSString JSObj × List HttpRequest :=
  match oracle (getRequestOf res params) with
  | .error e => (.error e, [getRequestOf res params])
  | .ok body => (.ok (conv body), [getRequestOf res params])

/-- `DV360Resource.update`: GET the current server state, compute the patch
mask of the fetched original against `entity`; on an empty mask return the
fetched original with no further request, otherwise PATCH `entity` to the
patch URI and convert the response. -/
def runUpdate (conv : JSObj → JSObj) (res : ResourceCfg) (oracle : HttpOracle)
    (entity : JSObj) : Except JSString JSObj × List HttpRequest :=
  match (runGet conv res oracle entity).1 with
  | .error e => (.error e, (runGet conv res oracle entity).2)
  | .ok original =>
      if getPatchMask original entity = [] then
        (.ok original, (runGet conv res oracle entity).2)
      else
        match oracle (patchRequestOf res original entity) with
        | .error e =>
            (.error e, (runGet conv res oracle entity).2 ++ [patchRequestOf res original entity])
        | .ok r =>
            (.ok (conv r), (runGet conv res oracle entity).2 ++ [patchRequestOf res original entity])

/-- `DV360Resource.create`: POST the id-stripped payload to the create URI
and convert the response. -/
def runCreate (conv : JSObj → JSObj) (res : ResourceCfg) (oracle : HttpOracle)
    (entity : JSObj) : Except JSString JSObj × List HttpRequest :=
  match oracle (createRequestOf res entity) with
  | .error e => (.error e, [createRequestOf res entity])
  | .ok r => (.ok (conv r), [createRequestOf res entity])

/-- Outcome of `DV360Resource.delete`: the thrown-or-ok result, the request
trace, and the final state of the CALLER'S entity object (which the method
mutates in place before anything else). -/
structure DeleteOutcome : Type where
  result : Except JSString Unit
  trace : List HttpRequest
  entityAfter : JSObj

/-- The in-place mutation `entity.entityStatus = 'ENTITY_STATUS_ARCHIVED'`
performed first by `DV360Resource.delete`. -/
def archivedEntity (entity : JSObj) : JSObj :=
  objSet entity (js ("entityStatus")) (.str (js ("ENTITY_STATUS_ARCHIVED")))

/-- `DV360Resource.delete`: first mutates the argument to its archived
state, then runs `update` (the archiving write), then issues the DELETE
request; an error of either network step propagates and nothing undoes the
archival. -/
def runDelete (conv : JSObj → JSObj) (res : ResourceCfg) (oracle : HttpOracle)
    (entity : JSObj) : DeleteOutcome :=
  match (runUpdate conv res oracle (archivedEntity entity)).1 with
  | .error e =>
      ⟨.error e, (runUpdate conv res oracle (archivedEntity entity)).2, archivedEntity entity⟩
  | .ok _ =>
      match oracle (deleteRequestOf res (archivedEntity entity)) with
      | .error e =>
          ⟨.error e,
            (runUpdate conv res oracle (archivedEntity entity)).2 ++
              [deleteRequestOf res (archivedEntity entity)],
            archivedEntity entity⟩
      | .ok _ =>
          ⟨.ok (),
            (runUpdate conv res oracle (archivedEntity entity)).2 ++
              [deleteRequestOf res (archivedEntity entity)],
            archivedEntity entity⟩

/-! ### Concrete resource constructor states (src/02_dv360_entities.gs,
lines 600-684).  `Advertisers` passes NO `primaryIdField` argument. -/

def advertisersCfg : ResourceCfg :=
  ⟨js ("advertisers?partnerId=$\x7bpartnerId\x7d"), js ("advertisers"), .undefined, js ("")⟩

def campaignsCfg : ResourceCfg :=
  ⟨js ("advertisers/$\x7badvertiserId\x7d/campaigns"), js ("campaigns"),
    .str (js ("campaignId")), js ("")⟩

def insertionOrdersCfg : ResourceCfg :=
  ⟨js ("advertisers/$\x7badvertiserId\x7d/insertionOrders"), js ("insertionOrders"),
    .str (js ("insertionOrderId")), js ("campaignId=$\x7bcampaignId\x7d")⟩

def lineItemsCfg : ResourceCfg :=
  ⟨js ("advertisers/$\x7badvertiserId\x7d/lineItems"), js ("lineItems"),
    .str (js ("lineItemId")),
    js ("campaignId=$\x7bcampaignId\x7d AND insertionOrderId=$\x7binsertionOrderId\x7d")⟩

def creativesCfg : ResourceCfg :=
  ⟨js ("advertisers/$\x7badvertiserId\x7d/creatives"), js ("creatives"),
    .str (js ("creativeId")), js ("lineItemIds:$\x7blineItemId\x7d")⟩

/-! ### `LineItemTargetingOptions` (src/02_dv360_entities.gs, lines 722-806) -/

/-- `new Set(...)` insertion-order de-duplication under `SameValueZero`:
keeps the first occurrence of each value, tracked by the `seen`
accumulator. -/
def dedupFirstAux (seen : List JValue) : List JValue → List JValue
  | [] => []
  | x :: xs =>
      if seen.any (fun y => strictEq y x) then dedupFirstAux seen xs
      else x :: dedupFirstAux (x :: seen) xs

/-- The element list of `new Set(values)`, in insertion order. -/
def dedupFirst (values : List JValue) : List JValue := dedupFirstAux [] values

/-- `LineItemTargetingOptions.collectUniqueTypes`. -/
def collectUniqueTypes (options : List JSObj) : List JValue :=
  dedupFirst (options.map (fun o => objLookup o (js ("targetingType"))))

/-- `LineItemTargetingOptions.createRequests_`: one group per distinct
targeting type of `difference(newOptions, oldOptions)`. -/
def createRequestsJS (newOptions oldOptions : List JSObj) : List CreateRequestGroup :=
  let optionsToCreate := differenceJS newOptions oldOptions
  (collectUniqueTypes optionsToCreate).map (fun ty =>
    ⟨ty, optionsToCreate.filter (fun o => strictEq (objLookup o (js ("targetingType"))) ty)⟩)

/-- `LineItemTargetingOptions.deleteRequests`: one group per distinct
targeting type of `difference(oldOptions, newOptions)`, carrying the
`assignedTargetingOptionId`s. -/
def deleteRequestsJS (newOptions oldOptions : List JSObj) : List DeleteRequestGroup :=
  let optionsToDelete := differenceJS oldOptions newOptions
  (collectUniqueTypes optionsToDelete).map (fun ty =>
    ⟨ty,
      (optionsToDelete.filter (fun o => strictEq (objLookup o (js ("targetingType"))) ty)).map
        (fun o => objLookup o (js ("assignedTargetingOptionId")))⟩)

/-- The bulk-edit POST URI of `LineItemTargetingOptions.bulkUpdate`. -/
def bulkEditUri (lineItem : JSObj) : JSString :=
  replaceInputValues
    (js ("advertisers/$\x7badvertiserId\x7d/lineItems/$\x7blineItemId\x7d:bulkEditLineItemAssignedTargetingOptions"))
    lineItem

/-- The POST request of `LineItemTargetingOptions.bulkUpdate`, carrying the
`{deleteRequests, createRequests}` payload. -/
def bulkRequestOf (lineItem : JSObj) (newOptions oldOptions : List JSObj) : HttpRequest :=
  ⟨.mPost, bulkEditUri lineItem,
    some (.bulkBody (deleteRequestsJS newOptions oldOptions)
      (createRequestsJS newOptions oldOptions))⟩

/-- `LineItemTargetingOptions.bulkUpdate`.  `oldOptions` is the result of the
initial `lineItem.listTargetingOptions()` fetch (whose GET belongs to `list`
and is not part of this method's own request building); the POST with the
`{deleteRequests, createRequests}` payload is issued unconditionally.  The
result is `response.createdAssignedTargetingOptions || []` (the fallback is a
fresh empty array). -/
def runBulkUpdate (oracle : HttpOracle) (lineItem : JSObj)
    (newOptions oldOptions : List JSObj) : Except JSString JValue × List HttpRequest :=
  match oracle (bulkRequestOf lineItem newOptions oldOptions) with
  | .error e => (.error e, [bulkRequestOf lineItem newOptions oldOptions])
  | .ok resp =>
      (.ok
        (if isFalsy (objLookup resp (js ("createdAssignedTargetingOptions"))) then .arr 0 []
         else objLookup resp (js ("createdAssignedTargetingOptions"))),
        [bulkRequestOf lineItem newOptions oldOptions])

/-! ### Sheet-row deletion (src/06_dv360_sheet.gs `deleteEntries_` and
src/01_dv360.js / src/07_sheet_util.js `SheetUtil.deleteSheetRows`) -/

/-- `rowNumbers.map((number, index) => number - index)`: the numbers actually
passed to `sheet.deleteRow`, in order. -/
def reindexFrom (i : Nat) : List Nat → List Nat
  | [] => []
  | n :: ns => (n - i) :: reindexFrom (i + 1) ns

/-- The arguments `SheetUtil.deleteSheetRows` passes to `sheet.deleteRow`,
in call order. -/
def deleteRowCalls (rowNumbers : List Nat) : List Nat := reindexFrom 0 rowNumbers

/-- `sheet.deleteRow(n)`: removes the 1-based `n`-th row. -/
def applyDeleteRow (sheet : List α) (rowNumber : Nat) : List α :=
  sheet.eraseIdx (rowNumber - 1)

/-- `SheetUtil.deleteSheetRows`: applies `deleteRow` to each reindexed
number in order. -/
def deleteSheetRowsJS (sheet : List α) (rowNumbers : List Nat) : List α :=
  (deleteRowCalls rowNumbers).foldl applyDeleteRow sheet

/-- The row numbers `DV360Sheet.deleteEntries_` batches for physical
removal: one entry `sheetIndex + rangeStartRow` per DELETE-classified row
whose `dv360resource_.delete` call did not throw, in row order; rows whose
call threw get an error log instead and are not batched.  The batch is
handed to `SheetUtil.deleteSheetRows` only after the loop over all rows. -/
def deleteEntriesRowNumbers (succeeds : Nat → Bool) (sheetIndexes : List Nat)
    (rangeStartRow : Nat) : List Nat :=
  (sheetIndexes.filter succeeds).map (fun i => i + rangeStartRow)

/-- End-to-end effect of `DV360Sheet.deleteEntries_` on the sheet's rows:
batch the successful rows, then remove them via `deleteSheetRows`. -/
def deleteEntriesJS (succeeds : Nat → Bool) (sheetIndexes : List Nat)
    (rangeStartRow : Nat) (sheet : List α) : List α :=
  deleteSheetRowsJS sheet (deleteEntriesRowNumbers succeeds sheetIndexes rangeStartRow)

/-- Reference behaviour: keep exactly the rows whose 1-based row number is
not listed.  (`keepAux ns i sheet` processes `sheet` with its first row
numbered `i`.) -/
def keepAux (ns : List Nat) : Nat → List α → List α
  | _, [] => []
  | i, x :: xs =>
      if i ∈ ns then keepAux ns (i + 1) xs else x :: keepAux ns (i + 1) xs

/-- Rows of `sheet` whose 1-based row number is not in `ns`. -/
def keepRows (sheet : List α) (ns : List Nat) : List α := keepAux ns 1 sheet

/-! ### Basic lemmas about the value model -/

theorem looseEq_refl (v : JValue) : looseEq v v = true := by
  cases v <;> simp [looseEq]

theorem strictEq_refl (v : JValue) : strictEq v v = true := by
  cases v <;> simp [strictEq]

theorem removeKey_lookup_self (o : JSObj) (key : JSString) :
    objLookup (removeKey o key) key = .undefined := by
  induction o with
  | nil => rfl
  | cons p rest ih =>
      obtain ⟨k, v⟩ := p
      by_cases hk : k = key
      · simp [removeKey, hk, ih]
      · simp [removeKey, objLookup, hk, ih]

theorem removeKey_lookup_other (o : JSObj) (key f : JSString) (hf : f ≠ key) :
    objLookup (removeKey o key) f = objLookup o f := by
  induction o with
  | nil => rfl
  | cons p rest ih =>
      obtain ⟨k, v⟩ := p
      by_cases hk : k = key
      · subst hk
        have hkf : k ≠ f := fun h => hf h.symm
        simp [removeKey, objLookup, hkf, ih]
      · by_cases hkf : k = f
        · subst hkf
          simp [removeKey, objLookup, hk, hf]
        · simp [removeKey, objLookup, hk, hkf, ih]

theorem objSet_lookup_self (o : JSObj) (key : JSString) (v : JValue) :
    objLookup (objSet o key v) key = v := by
  induction o with
  | nil => simp [objSet, objLookup]
  | cons p rest ih =>
      obtain ⟨k, w⟩ := p
      by_cases hk : k = key <;> simp [objSet, objLookup, hk, ih]

theorem objSet_lookup_other (o : JSObj) (key f : JSString) (v : JValue) (hf : f ≠ key) :
    objLookup (objSet o key v) f = objLookup o f := by
  induction o with
  | nil =>
      have hkf : key ≠ f := fun h => hf h.symm
      simp [objSet, objLookup, hkf]
  | cons p rest ih =>
      obtain ⟨k, w⟩ := p
      by_cases hk : k = key
      · subst hk
        have hkf : k ≠ f := fun h => hf h.symm
        simp [objSet, objLookup, hkf]
      · by_cases hkf : k = f
        · subst hkf
          simp [objSet, objLookup, hk]
        · simp [objSet, objLookup, hk, hkf, ih]

theorem getValueByDottedFieldName_congr (x y : JSObj) (f : JSString)
    (h : ∀ g, objLookup y g = objLookup x g) :
    getValueByDottedFieldName y f = getValueByDottedFieldName x f := by
  unfold getValueByDottedFieldName
  rcases hsp : List.splitOn '.' f with _ | ⟨seg, rest⟩
  · rfl
  · show List.foldl propGet (objLookup y seg) rest = List.foldl propGet (objLookup x seg) rest
    rw [h seg]

/-! ### C1: the primary-identifier filter of `getPatchMask` is dead code -/

/-- C1: the claim states that a computed patch mask never contains the
resource kind's primary-identifier field and never contains `updateTime`.
The `updateTime` half holds, but the primary-identifier half fails: the
filter compares each field name against `this.primaryIdField_`, a property
that exists only on `DV360Resource` objects and is `undefined` on every
`DV360Entity`, so no name is ever filtered out.  Evaluating the embedded
`getPatchMask` on two campaigns that differ only in `campaignId` yields the
mask `campaignId`; differing only in `updateTime` yields the empty mask. -/
theorem c1_patch_mask_keeps_primary_id_drops_update_time :
    getPatchMask
        [(js ("campaignId"), .str (js ("111"))), (js ("displayName"), .str (js ("Brand")))]
        [(js ("campaignId"), .str (js ("222"))), (js ("displayName"), .str (js ("Brand")))]
      = js ("campaignId") ∧
    getPatchMask
        [(js ("campaignId"), .str (js ("111"))), (js ("updateTime"), .str (js ("t1")))]
        [(js ("campaignId"), .str (js ("111"))), (js ("updateTime"), .str (js ("t2")))]
      = [] := by
  exact ⟨by decide, by decide⟩

/-! ### C3: value-equal copies and the patch mask -/

/-- C3 (counterexample): the claim states that a value-equal copy of a
resource (a DISTINCT object instance with identical JSON content, including
nested object-valued fields) always yields an empty patch mask.  The
comparison is JS loose `!=`, which compares object-valued fields by
reference: two campaigns with identical JSON serializations whose
`campaignGoal` objects are distinct instances produce the mask
`campaignGoal`. -/
theorem c3_counterexample_distinct_nested_instance :
    jsonStringifyObj
        [(js ("campaignId"), .str (js ("1"))),
         (js ("campaignGoal"), .obj 1 [(js ("campaignGoalType"), .str (js ("G")))])]
      = jsonStringifyObj
        [(js ("campaignId"), .str (js ("1"))),
         (js ("campaignGoal"), .obj 2 [(js ("campaignGoalType"), .str (js ("G")))])] ∧
    getPatchMask
        [(js ("campaignId"), .str (js ("1"))),
         (js ("campaignGoal"), .obj 1 [(js ("campaignGoalType"), .str (js ("G")))])]
        [(js ("campaignId"), .str (js ("1"))),
         (js ("campaignGoal"), .obj 2 [(js ("campaignGoalType"), .str (js ("G")))])]
      = js ("campaignGoal") := by
  exact ⟨by decide, by decide⟩

/-- C3 (amended): `getPatchMask(x, x')` is the empty string whenever every
field of `x'` holds the very same value as the corresponding field of `x`
(equal primitives, or the same object/array reference) — in particular for
`x' = x` itself and for shallow copies, which share the nested references.
A copy whose nested object-valued field is a distinct instance instead
contributes that field to the mask (see the counterexample). -/
theorem c3_patch_mask_empty_of_shared_field_values (x y : JSObj)
    (h : ∀ g, objLookup y g = objLookup x g) : getPatchMask x y = [] := by
  unfold getPatchMask
  have hfilter :
      (((listFields y).filter
            (fun field => !(looseEq (.str field) (objLookup x (js ("primaryIdField_")))))).filter
          (fun field => !(looseEq (.str field) (.str (js ("updateTime")))))).filter
        (fun field =>
          !(looseEq (getValueByDottedFieldName y field)
              (getValueByDottedFieldName x field))) = [] := by
    rw [List.filter_eq_nil_iff]
    intro a _
    rw [getValueByDottedFieldName_congr x y a h, looseEq_refl]
    simp
  rw [hfilter]
  rfl

/-! ### Lemmas about the resource operations -/

theorem runGet_trace (conv : JSObj → JSObj) (res : ResourceCfg) (oracle : HttpOracle)
    (params : JSObj) : (runGet conv res oracle params).2 = [getRequestOf res params] := by
  unfold runGet
  cases oracle (getRequestOf res params) <;> rfl

theorem runUpdate_of_ok_empty (conv : JSObj → JSObj) (res : ResourceCfg) (oracle : HttpOracle)
    (entity original : JSObj) (hget : (runGet conv res oracle entity).1 = .ok original)
    (hmask : getPatchMask original entity = []) :
    runUpdate conv res oracle entity = (.ok original, (runGet conv res oracle entity).2) := by
  unfold runUpdate
  split
  · rename_i e heq
    rw [hget] at heq
    simp at heq
  · rename_i orig heq
    rw [hget] at heq
    injection heq with h2
    subst h2
    rw [if_pos hmask]

theorem runUpdate_trace_sub (conv : JSObj → JSObj) (res : ResourceCfg) (oracle : HttpOracle)
    (entity : JSObj) :
    (runUpdate conv res oracle entity).2 = [getRequestOf res entity] ∨
    ∃ original, (runGet conv res oracle entity).1 = .ok original ∧
      getPatchMask original entity ≠ [] ∧
      (runUpdate conv res oracle entity).2 =
        [getRequestOf res entity] ++ [patchRequestOf res original entity] := by
  unfold runUpdate
  split
  · rename_i e heq
    exact Or.inl (runGet_trace conv res oracle entity)
  · rename_i orig heq
    by_cases hmask : getPatchMask orig entity = []
    · rw [if_pos hmask]
      exact Or.inl (runGet_trace conv res oracle entity)
    · rw [if_neg hmask]
      refine Or.inr ⟨orig, heq, hmask, ?_⟩
      cases oracle (patchRequestOf res orig entity) <;>
        simp [runGet_trace conv res oracle entity]

theorem runUpdate_trace_methods (conv : JSObj → JSObj) (res : ResourceCfg) (oracle : HttpOracle)
    (entity : JSObj) (req : HttpRequest) (hreq : req ∈ (runUpdate conv res oracle entity).2) :
    req.method = .mGet ∨ req.method = .mPatch := by
  rcases runUpdate_trace_sub conv res oracle entity with h | ⟨orig, _, _, h⟩ <;> rw [h] at hreq
  · simp at hreq
    subst hreq
    exact Or.inl rfl
  · simp at hreq
    rcases hreq with hreq | hreq <;> subst hreq
    · exact Or.inl rfl
    · exact Or.inr rfl

/-! ### C2: empty patch mask short-circuits the update -/

/-- C2: if the freshly fetched (and converted) server-side original yields an
empty patch mask against `entity`, `update` returns that original and its
whole request trace consists of the initial GET — no PATCH (nor any other
write) is issued; conversely a PATCH appears in the trace only when the mask
is non-empty. -/
theorem c2_update_empty_mask_no_write (conv : JSObj → JSObj) (res : ResourceCfg)
    (oracle : HttpOracle) (entity original : JSObj)
    (hget : (runGet conv res oracle entity).1 = .ok original) :
    (getPatchMask original entity = [] →
       (runUpdate conv res oracle entity).1 = .ok original ∧
       ∀ req ∈ (runUpdate conv res oracle entity).2, req.method = .mGet) ∧
    (∀ req ∈ (runUpdate conv res oracle entity).2, req.method = .mPatch →
       getPatchMask original entity ≠ []) := by
  constructor
  · intro hmask
    have hrun := runUpdate_of_ok_empty conv res oracle entity original hget hmask
    rw [hrun, runGet_trace conv res oracle entity]
    refine ⟨rfl, ?_⟩
    intro req hreq
    simp at hreq
    subst hreq
    rfl
  · intro req hreq hp
    rcases runUpdate_trace_sub conv res oracle entity with h | ⟨orig, hg2, hmask, h⟩
    · rw [h] at hreq
      simp at hreq
      subst hreq
      simp [getRequestOf] at hp
    · rw [hget] at hg2
      injection hg2 with h2
      subst h2
      exact hmask

/-- C2 witness: concrete oracle and entity for which the fetched original's
mask against the entity is empty; `update` returns the original and issues
only the GET. -/
theorem c2_update_empty_mask_no_write_witness :
    (runUpdate (fun o => o) campaignsCfg
          (fun _ => .ok [(js ("campaignId"), JValue.str (js ("5")))])
          [(js ("campaignId"), JValue.str (js ("5")))]).1 =
        .ok [(js ("campaignId"), JValue.str (js ("5")))] ∧
      ∀ req ∈ (runUpdate (fun o => o) campaignsCfg
          (fun _ => .ok [(js ("campaignId"), JValue.str (js ("5")))])
          [(js ("campaignId"), JValue.str (js ("5")))]).2, req.method = .mGet :=
  (c2_update_empty_mask_no_write (fun o => o) campaignsCfg
      (fun _ => .ok [(js ("campaignId"), JValue.str (js ("5")))])
      [(js ("campaignId"), JValue.str (js ("5")))]
      [(js ("campaignId"), JValue.str (js ("5")))] rfl).1 rfl

/-! ### C5: the bulk targeting-option edit never short-circuits -/

/-- C5 (counterexample): the claim states that when both the create-request
and delete-request lists are empty, no network request is issued.  With
current and desired options content-equal (both lists hold the same option),
both computed groups are empty, yet `bulkUpdate` still issues its POST: the
request trace is the one-element list holding the bulk-edit request. -/
theorem c5_counterexample_posts_noop_bulk_edit :
    createRequestsJS
        [[(js ("targetingType"), JValue.str (js ("TARGETING_TYPE_BROWSER"))),
          (js ("assignedTargetingOptionId"), JValue.str (js ("1")))]]
        [[(js ("targetingType"), JValue.str (js ("TARGETING_TYPE_BROWSER"))),
          (js ("assignedTargetingOptionId"), JValue.str (js ("1")))]] = [] ∧
    deleteRequestsJS
        [[(js ("targetingType"), JValue.str (js ("TARGETING_TYPE_BROWSER"))),
          (js ("assignedTargetingOptionId"), JValue.str (js ("1")))]]
        [[(js ("targetingType"), JValue.str (js ("TARGETING_TYPE_BROWSER"))),
          (js ("assignedTargetingOptionId"), JValue.str (js ("1")))]] = [] ∧
    (runBulkUpdate (fun _ => .ok [])
        [(js ("advertiserId"), JValue.str (js ("1"))), (js ("lineItemId"), JValue.str (js ("2")))]
        [[(js ("targetingType"), JValue.str (js ("TARGETING_TYPE_BROWSER"))),
          (js ("assignedTargetingOptionId"), JValue.str (js ("1")))]]
        [[(js ("targetingType"), JValue.str (js ("TARGETING_TYPE_BROWSER"))),
          (js ("assignedTargetingOptionId"), JValue.str (js ("1")))]]).2 =
      [bulkRequestOf
        [(js ("advertiserId"), JValue.str (js ("1"))), (js ("lineItemId"), JValue.str (js ("2")))]
        [[(js ("targetingType"), JValue.str (js ("TARGETING_TYPE_BROWSER"))),
          (js ("assignedTargetingOptionId"), JValue.str (js ("1")))]]
        [[(js ("targetingType"), JValue.str (js ("TARGETING_TYPE_BROWSER"))),
          (js ("assignedTargetingOptionId"), JValue.str (js ("1")))]]] ∧
    (bulkRequestOf
        [(js ("advertiserId"), JValue.str (js ("1"))), (js ("lineItemId"), JValue.str (js ("2")))]
        [[(js ("targetingType"), JValue.str (js ("TARGETING_TYPE_BROWSER"))),
          (js ("assignedTargetingOptionId"), JValue.str (js ("1")))]]
        [[(js ("targetingType"), JValue.str (js ("TARGETING_TYPE_BROWSER"))),
          (js ("assignedTargetingOptionId"), JValue.str (js ("1")))]]).method = .mPost :=
  ⟨rfl, rfl, rfl, rfl⟩

/-- C5 (amended): `LineItemTargetingOptions.bulkUpdate` ALWAYS issues exactly
one POST — the bulk-edit request carrying the computed delete and create
groups — even when both groups are empty; there is no short-circuit. -/
theorem c5_bulk_update_always_posts (oracle : HttpOracle) (lineItem : JSObj)
    (newOptions oldOptions : List JSObj) :
    (runBulkUpdate oracle lineItem newOptions oldOptions).2 =
      [bulkRequestOf lineItem newOptions oldOptions] := by
  unfold runBulkUpdate
  cases oracle (bulkRequestOf lineItem newOptions oldOptions) <;> rfl

/-! ### C6: `create` and the primary-identifier field -/

/-- C6 (counterexample): the claim states that `create` strips the
primary-identifier field for EVERY entity kind, including Advertisers.  The
`Advertisers` constructor passes no `primaryIdField` to `DV360Resource`, so
`this.primaryIdField_` is `undefined` and `delete input[this.primaryIdField_]`
removes only a property literally named `undefined`: the POST payload of an
advertiser create still contains `advertiserId`. -/
theorem c6_counterexample_advertiser_id_not_stripped :
    createRequestOf advertisersCfg
        [(js ("advertiserId"), JValue.str (js ("123"))),
         (js ("partnerId"), JValue.str (js ("456")))] =
      ⟨.mPost, js ("advertisers?partnerId=456"),
        some (.objectBody
          [(js ("advertiserId"), JValue.str (js ("123"))),
           (js ("partnerId"), JValue.str (js ("456")))])⟩ ∧
    (runCreate (fun o => o) advertisersCfg (fun _ => .ok [])
        [(js ("advertiserId"), JValue.str (js ("123"))),
         (js ("partnerId"), JValue.str (js ("456")))]).2 =
      [createRequestOf advertisersCfg
        [(js ("advertiserId"), JValue.str (js ("123"))),
         (js ("partnerId"), JValue.str (js ("456")))]] :=
  ⟨rfl, rfl⟩

/-- C6 (amended): for every resource whose constructor declares a
primary-identifier field name (Campaigns, Insertion Orders, Line Items,
Creatives and the targeting-option resources — but not Advertisers, which
declares none), `create` POSTs a payload from which exactly that field has
been deleted (all other fields are untouched), and returns the resource
built from the transport's response. -/
theorem c6_create_strips_declared_primary_id (conv : JSObj → JSObj) (res : ResourceCfg)
    (oracle : HttpOracle) (entity : JSObj) (k : JSString)
    (hpid : res.primaryIdField_ = .str k) :
    (runCreate conv res oracle entity).2 = [createRequestOf res entity] ∧
    createRequestOf res entity =
      ⟨.mPost, buildCreateUri res entity, some (.objectBody (removeKey entity k))⟩ ∧
    objLookup (removeKey entity k) k = .undefined ∧
    (∀ f, f ≠ k → objLookup (removeKey entity k) f = objLookup entity f) ∧
    (∀ r, oracle (createRequestOf res entity) = .ok r →
       (runCreate conv res oracle entity).1 = .ok (conv r)) := by
  refine ⟨?_, ?_, removeKey_lookup_self entity k, ?_, ?_⟩
  · unfold runCreate
    cases oracle (createRequestOf res entity) <;> rfl
  · rw [createRequestOf, hpid]
    simp [toJSStringV]
  · intro f hf
    exact removeKey_lookup_other entity k f hf
  · intro r hr
    unfold runCreate
    rw [hr]

/-- C6 witness: a concrete campaign create — `campaignId` is deleted from
the payload, `displayName` survives, and the converted response is
returned. -/
theorem c6_create_strips_declared_primary_id_witness :
    objLookup
        (removeKey
          [(js ("campaignId"), JValue.str (js ("7"))),
           (js ("displayName"), JValue.str (js ("n")))]
          (js ("campaignId")))
        (js ("campaignId")) = .undefined ∧
    objLookup
        (removeKey
          [(js ("campaignId"), JValue.str (js ("7"))),
           (js ("displayName"), JValue.str (js ("n")))]
          (js ("campaignId")))
        (js ("displayName")) =
      objLookup
        [(js ("campaignId"), JValue.str (js ("7"))),
         (js ("displayName"), JValue.str (js ("n")))]
        (js ("displayName")) ∧
    (runCreate (fun o => o) campaignsCfg (fun _ => .ok [])
        [(js ("campaignId"), JValue.str (js ("7"))),
         (js ("displayName"), JValue.str (js ("n")))]).1 = .ok [] :=
  ⟨(c6_create_strips_declared_primary_id (fun o => o) campaignsCfg (fun _ => .ok [])
      [(js ("campaignId"), JValue.str (js ("7"))),
       (js ("displayName"), JValue.str (js ("n")))]
      (js ("campaignId")) rfl).2.2.1,
   (c6_create_strips_declared_primary_id (fun o => o) campaignsCfg (fun _ => .ok [])
      [(js ("campaignId"), JValue.str (js ("7"))),
       (js ("displayName"), JValue.str (js ("n")))]
      (js ("campaignId")) rfl).2.2.2.1 (js ("displayName")) (by decide),
   (c6_create_strips_declared_primary_id (fun o => o) campaignsCfg (fun _ => .ok [])
      [(js ("campaignId"), JValue.str (js ("7"))),
       (js ("displayName"), JValue.str (js ("n")))]
      (js ("campaignId")) rfl).2.2.2.2 [] rfl⟩

/-! ### Lemmas about `DV360Resource.delete` -/

theorem runDelete_entityAfter (conv : JSObj → JSObj) (res : ResourceCfg) (oracle : HttpOracle)
    (entity : JSObj) : (runDelete conv res oracle entity).entityAfter = archivedEntity entity := by
  unfold runDelete
  split
  · rfl
  · split <;> rfl

theorem runDelete_of_update_error (conv : JSObj → JSObj) (res : ResourceCfg)
    (oracle : HttpOracle) (entity : JSObj) (e : JSString)
    (h : (runUpdate conv res oracle (archivedEntity entity)).1 = .error e) :
    runDelete conv res oracle entity =
      ⟨.error e, (runUpdate conv res oracle (archivedEntity entity)).2, archivedEntity entity⟩ := by
  unfold runDelete
  split
  · rename_i e2 heq
    rw [h] at heq
    injection heq with h2
    subst h2
    rfl
  · rename_i v heq
    rw [h] at heq
    simp at heq

theorem runDelete_trace_of_update_ok (conv : JSObj → JSObj) (res : ResourceCfg)
    (oracle : HttpOracle) (entity : JSObj) (v : JSObj)
    (h : (runUpdate conv res oracle (archivedEntity entity)).1 = .ok v) :
    (runDelete conv res oracle entity).trace =
      (runUpdate conv res oracle (archivedEntity entity)).2 ++
        [deleteRequestOf res (archivedEntity entity)] := by
  unfold runDelete
  split
  · rename_i e heq
    rw [h] at heq
    simp at heq
  · rename_i w heq
    split <;> rfl

/-! ### C8: archive-then-remove ordering of `delete` -/

theorem runDelete_result_of_delete_error (conv : JSObj → JSObj) (res : ResourceCfg)
    (oracle : HttpOracle) (entity : JSObj) (v : JSObj) (e : JSString)
    (h : (runUpdate conv res oracle (archivedEntity entity)).1 = .ok v)
    (hd : oracle (deleteRequestOf res (archivedEntity entity)) = .error e) :
    (runDelete conv res oracle entity).result = .error e := by
  unfold runDelete
  split
  · rename_i e2 heq
    rw [h] at heq
    simp at heq
  · rename_i w heq
    rw [hd]

theorem runDelete_result_of_delete_ok (conv : JSObj → JSObj) (res : ResourceCfg)
    (oracle : HttpOracle) (entity : JSObj) (v w : JSObj)
    (h : (runUpdate conv res oracle (archivedEntity entity)).1 = .ok v)
    (hd : oracle (deleteRequestOf res (archivedEntity entity)) = .ok w) :
    (runDelete conv res oracle entity).result = .ok () := by
  unfold runDelete
  split
  · rename_i e2 heq
    rw [h] at heq
    simp at heq
  · rename_i u heq
    rw [hd]

/-- C8: `delete` first performs the archiving `update` (whose requests are
only GET and PATCH — never a DELETE) and those requests form the initial
segment of `delete`'s trace; the DELETE request is appended strictly
afterwards and only when the update succeeded.  Failure of either step
propagates to the caller: an update failure is returned unchanged with no
further request (neither the DELETE nor any compensation of the archival),
a failing DELETE request is returned as that error, and `delete` finishes
normally only when the DELETE succeeded. -/
theorem c8_archive_update_precedes_delete_request (conv : JSObj → JSObj) (res : ResourceCfg)
    (oracle : HttpOracle) (entity : JSObj) :
    ((runDelete conv res oracle entity).trace.take
        (runUpdate conv res oracle (archivedEntity entity)).2.length =
      (runUpdate conv res oracle (archivedEntity entity)).2) ∧
    (∀ req ∈ (runUpdate conv res oracle (archivedEntity entity)).2,
       req.method ≠ .mDelete) ∧
    (∀ e, (runUpdate conv res oracle (archivedEntity entity)).1 = .error e →
       (runDelete conv res oracle entity).result = .error e ∧
       (runDelete conv res oracle entity).trace =
         (runUpdate conv res oracle (archivedEntity entity)).2) ∧
    (∀ v, (runUpdate conv res oracle (archivedEntity entity)).1 = .ok v →
       (runDelete conv res oracle entity).trace =
         (runUpdate conv res oracle (archivedEntity entity)).2 ++
           [deleteRequestOf res (archivedEntity entity)]) ∧
    (∀ v e, (runUpdate conv res oracle (archivedEntity entity)).1 = .ok v →
       oracle (deleteRequestOf res (archivedEntity entity)) = .error e →
       (runDelete conv res oracle entity).result = .error e) ∧
    (∀ v w, (runUpdate conv res oracle (archivedEntity entity)).1 = .ok v →
       oracle (deleteRequestOf res (archivedEntity entity)) = .ok w →
       (runDelete conv res oracle entity).result = .ok ()) := by
  refine ⟨?_, ?_, ?_, ?_, ?_, ?_⟩
  · rcases hu : (runUpdate conv res oracle (archivedEntity entity)).1 with e | v
    · rw [runDelete_of_update_error conv res oracle entity e hu]
      exact List.take_length _
    · rw [runDelete_trace_of_update_ok conv res oracle entity v hu]
      exact List.take_left _ _
  · intro req hreq
    rcases runUpdate_trace_methods conv res oracle (archivedEntity entity) req hreq with h | h <;>
      simp [h]
  · intro e he
    rw [runDelete_of_update_error conv res oracle entity e he]
    exact ⟨rfl, rfl⟩
  · intro v hv
    exact runDelete_trace_of_update_ok conv res oracle entity v hv
  · intro v e hv he
    exact runDelete_result_of_delete_error conv res oracle entity v e hv he
  · intro v w hv hw
    exact runDelete_result_of_delete_ok conv res oracle entity v w hv hw

/-- C8 witness: a concrete delete in which the archiving update (GET then
PATCH) succeeds and the DELETE request is the last element of the trace,
after the whole update trace; with a transport whose DELETE request throws,
the thrown error is the result handed back to the caller. -/
theorem c8_archive_update_precedes_delete_request_witness :
    (runDelete (fun o => o) campaignsCfg (fun _ => .ok [])
          [(js ("campaignId"), JValue.str (js ("5")))]).trace =
        (runUpdate (fun o => o) campaignsCfg (fun _ => .ok [])
            (archivedEntity [(js ("campaignId"), JValue.str (js ("5")))])).2 ++
          [deleteRequestOf campaignsCfg
            (archivedEntity [(js ("campaignId"), JValue.str (js ("5")))])] ∧
    (∀ req ∈ (runUpdate (fun o => o) campaignsCfg (fun _ => .ok [])
        (archivedEntity [(js ("campaignId"), JValue.str (js ("5")))])).2,
      req.method ≠ .mDelete) ∧
    (runDelete (fun o => o) campaignsCfg
        (fun req => if req.method = .mDelete then .error (js ("HTTP 400")) else .ok [])
        [(js ("campaignId"), JValue.str (js ("5")))]).result = .error (js ("HTTP 400")) :=
  ⟨(c8_archive_update_precedes_delete_request (fun o => o) campaignsCfg (fun _ => .ok [])
      [(js ("campaignId"), JValue.str (js ("5")))]).2.2.2.1 [] rfl,
   (c8_archive_update_precedes_delete_request (fun o => o) campaignsCfg (fun _ => .ok [])
      [(js ("campaignId"), JValue.str (js ("5")))]).2.1,
   (c8_archive_update_precedes_delete_request (fun o => o) campaignsCfg
      (fun req => if req.method = .mDelete then .error (js ("HTTP 400")) else .ok [])
      [(js ("campaignId"), JValue.str (js ("5")))]).2.2.2.2.1 [] (js ("HTTP 400")) rfl rfl⟩

/-! ### C10: `delete` archives the caller's object in place -/

/-- C10: `delete` mutates its argument in place: whatever the transport does
(including a DELETE request that throws after a successful archiving
update), the caller's entity afterwards carries
`entityStatus = 'ENTITY_STATUS_ARCHIVED'`, and `delete` itself modifies no
other field of the argument. -/
theorem c10_delete_archives_argument_in_place (conv : JSObj → JSObj) (res : ResourceCfg)
    (oracle : HttpOracle) (entity : JSObj) :
    (runDelete conv res oracle entity).entityAfter = archivedEntity entity ∧
    objLookup (runDelete conv res oracle entity).entityAfter (js ("entityStatus")) =
      .str (js ("ENTITY_STATUS_ARCHIVED")) ∧
    (∀ f, f ≠ js ("entityStatus") →
       objLookup (runDelete conv res oracle entity).entityAfter f = objLookup entity f) := by
  refine ⟨runDelete_entityAfter conv res oracle entity, ?_, ?_⟩
  · rw [runDelete_entityAfter conv res oracle entity]
    exact objSet_lookup_self entity (js ("entityStatus")) (.str (js ("ENTITY_STATUS_ARCHIVED")))
  · intro f hf
    rw [runDelete_entityAfter conv res oracle entity]
    exact objSet_lookup_other entity (js ("entityStatus")) f
      (.str (js ("ENTITY_STATUS_ARCHIVED"))) hf

/-- C10 witness: concrete delete whose DELETE request throws after the
archive: the caller's campaign still ends archived, with its other field
untouched. -/
theorem c10_delete_archives_argument_in_place_witness :
    objLookup
        (runDelete (fun o => o) campaignsCfg
          (fun req => if req.method = .mDelete then .error (js ("HTTP 400")) else .ok [])
          [(js ("campaignId"), JValue.str (js ("5"))),
           (js ("entityStatus"), JValue.str (js ("ENTITY_STATUS_ACTIVE")))]).entityAfter
        (js ("entityStatus")) = .str (js ("ENTITY_STATUS_ARCHIVED")) ∧
    objLookup
        (runDelete (fun o => o) campaignsCfg
          (fun req => if req.method = .mDelete then .error (js ("HTTP 400")) else .ok [])
          [(js ("campaignId"), JValue.str (js ("5"))),
           (js ("entityStatus"), JValue.str (js ("ENTITY_STATUS_ACTIVE")))]).entityAfter
        (js ("campaignId")) =
      objLookup
        [(js ("campaignId"), JValue.str (js ("5"))),
         (js ("entityStatus"), JValue.str (js ("ENTITY_STATUS_ACTIVE")))]
        (js ("campaignId")) :=
  ⟨(c10_delete_archives_argument_in_place (fun o => o) campaignsCfg
      (fun req => if req.method = .mDelete then .error (js ("HTTP 400")) else .ok [])
      [(js ("campaignId"), JValue.str (js ("5"))),
       (js ("entityStatus"), JValue.str (js ("ENTITY_STATUS_ACTIVE")))]).2.1,
   (c10_delete_archives_argument_in_place (fun o => o) campaignsCfg
      (fun req => if req.method = .mDelete then .error (js ("HTTP 400")) else .ok [])
      [(js ("campaignId"), JValue.str (js ("5"))),
       (js ("entityStatus"), JValue.str (js ("ENTITY_STATUS_ACTIVE")))]).2.2
      (js ("campaignId")) (by decide)⟩

/-! ### C7: placeholder substitution replaces only the first occurrence -/

theorem isPrefixOf_append_self (l t : JSString) : l.isPrefixOf (l ++ t) = true := by
  simp

theorem getSubstitution_no_dollar (matched before after rep : JSString)
    (h : '$' ∉ rep) : getSubstitution matched before after rep = rep := by
  induction rep with
  | nil => rfl
  | cons c rest ih =>
      simp only [List.mem_cons, not_or] at h
      have hc : c ≠ '$' := fun hcc => h.1 hcc.symm
      cases rest with
      | nil =>
          simp only [getSubstitution]
          rw [if_neg hc]
      | cons d rest2 =>
          simp only [getSubstitution]
          rw [if_neg hc, ih h.2]

theorem replaceFirstAux_head (pat rep before s : JSString) (h : pat.isPrefixOf s = true) :
    replaceFirstAux pat rep before s =
      getSubstitution pat before (s.drop pat.length) rep ++ s.drop pat.length := by
  cases s with
  | nil => simp [replaceFirstAux, h]
  | cons c rest => simp [replaceFirstAux, h]

theorem replaceFirstAux_at_offset (pat rep post : JSString) :
    ∀ (pre acc : JSString),
      (∀ k, k < pre.length → ¬ (pat.isPrefixOf ((pre ++ (pat ++ post)).drop k) = true)) →
      replaceFirstAux pat rep acc (pre ++ (pat ++ post)) =
        pre ++ (getSubstitution pat (acc ++ pre) post rep ++ post) := by
  intro pre
  induction pre with
  | nil =>
      intro acc h
      rw [List.nil_append,
        replaceFirstAux_head pat rep acc (pat ++ post) (isPrefixOf_append_self pat post),
        List.drop_left]
      simp
  | cons a pre ih =>
      intro acc h
      have h0 : ¬ (pat.isPrefixOf (a :: (pre ++ (pat ++ post))) = true) := by
        have h' := h 0 (by simp)
        simpa using h'
      rw [List.cons_append]
      simp only [replaceFirstAux]
      rw [if_neg h0]
      rw [List.cons_append]
      congr 1
      rw [List.append_cons acc a pre]
      apply ih (acc ++ [a])
      intro k hk
      have h' := h (k + 1) (by simpa using Nat.succ_lt_succ hk)
      simpa [List.cons_append] using h'

theorem replaceFirst_at_offset (pat rep post pre : JSString)
    (h : ∀ k, k < pre.length → ¬ (pat.isPrefixOf ((pre ++ (pat ++ post)).drop k) = true)) :
    replaceFirst pat rep (pre ++ (pat ++ post)) =
      pre ++ (getSubstitution pat pre post rep ++ post) := by
  have haux := replaceFirstAux_at_offset pat rep post pre [] h
  simpa [replaceFirst] using haux

theorem replaceFirstAux_no_occurrence (pat rep s : JSString) (hpat : pat ≠ [])
    (h : ¬ List.IsInfix pat s) :
    ∀ acc, replaceFirstAux pat rep acc s = s := by
  induction s with
  | nil =>
      intro acc
      have hp : pat.isPrefixOf ([] : JSString) = false := by
        cases pat with
        | nil => exact absurd rfl hpat
        | cons a l => rfl
      simp [replaceFirstAux, hp]
  | cons c rest ih =>
      intro acc
      have hp : ¬ (pat.isPrefixOf (c :: rest) = true) := by
        intro hpre
        exact h (List.IsPrefix.isInfix (List.isPrefixOf_iff_prefix.mp hpre))
      have hrest : ¬ List.IsInfix pat rest := by
        intro hinf
        rcases hinf with ⟨s1, t1, heq⟩
        exact h ⟨c :: s1, t1, by rw [List.cons_append, List.cons_append, heq]⟩
      simp only [replaceFirstAux]
      rw [if_neg hp, ih hrest (acc ++ [c])]

theorem replaceFirst_no_occurrence (pat rep s : JSString) (hpat : pat ≠ [])
    (h : ¬ List.IsInfix pat s) : replaceFirst pat rep s = s :=
  replaceFirstAux_no_occurrence pat rep s hpat h []

theorem placeholder_ne_nil (name : JSString) : placeholder name ≠ [] := by
  have hshape : placeholder name = '$' :: (('{' :: name) ++ (js ("\x7d"))) := rfl
  rw [hshape]
  exact List.cons_ne_nil _ _

theorem replaceInputValues_no_occurrence (input : JSString) (params : JSObj)
    (h : ∀ p ∈ params, ¬ List.IsInfix (placeholder p.1) input) :
    replaceInputValues input params = input := by
  induction params generalizing input with
  | nil => rfl
  | cons p ps ih =>
      have h0 : ¬ List.IsInfix (placeholder p.1) input := h p (List.mem_cons_self p ps)
      have hstep : replaceFirst (placeholder p.1) (toJSStringV p.2) input = input :=
        replaceFirst_no_occurrence _ _ _ (placeholder_ne_nil p.1) h0
      have hfold : replaceInputValues input (p :: ps) =
          replaceInputValues (replaceFirst (placeholder p.1) (toJSStringV p.2) input) ps := rfl
      rw [hfold, hstep]
      exact ih input (fun q hq => h q (List.mem_cons_of_mem p hq))

/-- C7 (counterexample): the claim states that EVERY occurrence of a
placeholder whose name is in the map is replaced.  `replaceInputValues` uses
`String.prototype.replace` with a string pattern, which replaces only the
FIRST occurrence: with `advertiserId` bound to `123`, a template holding the
placeholder twice keeps its second occurrence verbatim. -/
theorem c7_counterexample_second_occurrence_kept :
    replaceInputValues (js ("advertisers/$\x7badvertiserId\x7d/x/$\x7badvertiserId\x7d"))
        [(js ("advertiserId"), JValue.str (js ("123")))] =
      js ("advertisers/123/x/$\x7badvertiserId\x7d") ∧
    replaceInputValues (js ("advertisers/$\x7badvertiserId\x7d/x/$\x7badvertiserId\x7d"))
        [(js ("advertiserId"), JValue.str (js ("123")))] ≠
      js ("advertisers/123/x/123") :=
  ⟨rfl, by decide⟩

/-- C7 (amended): each map entry, taken in insertion order, replaces only
the FIRST occurrence of `${name}` in the current string, and the inserted
text is the entry's value as transformed by `String.prototype.replace`'s
`GetSubstitution` (so `$$`, `$&` and the backquote- and quote-escapes
expand; a value containing no dollar sign is inserted literally, as in the
spec's own example).  Map entries whose placeholders do not occur leave the
string unchanged; in particular placeholders of names absent from the map
stay literally intact, and no error is raised. -/
theorem c7_replaces_first_occurrence_leaves_rest :
    (∀ (ps1 ps2 : JSObj) (pre post name : JSString) (v : JValue),
       (∀ q ∈ ps1, ¬ List.IsInfix (placeholder q.1) (pre ++ (placeholder name ++ post))) →
       (∀ k, k < pre.length →
          ¬ ((placeholder name).isPrefixOf
              ((pre ++ (placeholder name ++ post)).drop k) = true)) →
       (∀ q ∈ ps2, ¬ List.IsInfix (placeholder q.1)
          (pre ++ (getSubstitution (placeholder name) pre post (toJSStringV v) ++ post))) →
       replaceInputValues (pre ++ (placeholder name ++ post)) (ps1 ++ ((name, v) :: ps2)) =
         pre ++ (getSubstitution (placeholder name) pre post (toJSStringV v) ++ post)) ∧
    (∀ (pre post name : JSString) (v : JValue),
       (∀ k, k < pre.length →
          ¬ ((placeholder name).isPrefixOf
              ((pre ++ (placeholder name ++ post)).drop k) = true)) →
       '$' ∉ toJSStringV v →
       replaceInputValues (pre ++ (placeholder name ++ post)) [(name, v)] =
         pre ++ (toJSStringV v ++ post)) ∧
    (∀ (input : JSString) (params : JSObj),
       (∀ p ∈ params, ¬ List.IsInfix (placeholder p.1) input) →
       replaceInputValues input params = input) := by
  refine ⟨?_, ?_, fun input params h => replaceInputValues_no_occurrence input params h⟩
  · intro ps1 ps2 pre post name v h1 h2 h3
    have hsplit : replaceInputValues (pre ++ (placeholder name ++ post))
        (ps1 ++ ((name, v) :: ps2)) =
        replaceInputValues (replaceInputValues (pre ++ (placeholder name ++ post)) ps1)
          ((name, v) :: ps2) := by
      simp [replaceInputValues, List.foldl_append]
    rw [hsplit, replaceInputValues_no_occurrence _ ps1 h1]
    have hcons : replaceInputValues (pre ++ (placeholder name ++ post)) ((name, v) :: ps2) =
        replaceInputValues
          (replaceFirst (placeholder name) (toJSStringV v) (pre ++ (placeholder name ++ post)))
          ps2 := rfl
    rw [hcons, replaceFirst_at_offset (placeholder name) (toJSStringV v) post pre h2]
    exact replaceInputValues_no_occurrence _ ps2 h3
  · intro pre post name v h hdollar
    have hone : replaceInputValues (pre ++ (placeholder name ++ post)) [(name, v)] =
        replaceFirst (placeholder name) (toJSStringV v) (pre ++ (placeholder name ++ post)) :=
      rfl
    rw [hone, replaceFirst_at_offset (placeholder name) (toJSStringV v) post pre h,
      getSubstitution_no_dollar (placeholder name) pre post (toJSStringV v) hdollar]

/-- C7 witness: the spec's own example (`advertisers/${advertiserId}/...`
with `advertiserId = "123"`), once inside a three-entry map whose other
entries' placeholders are absent, once as a single dollar-free entry, and a
map whose only placeholder does not occur at all. -/
theorem c7_replaces_first_occurrence_leaves_rest_witness :
    replaceInputValues (js ("advertisers/$\x7badvertiserId\x7d/campaigns"))
        [(js ("campaignId"), JValue.str (js ("9"))),
         (js ("advertiserId"), JValue.str (js ("123"))),
         (js ("partnerId"), JValue.str (js ("7")))] =
      js ("advertisers/123/campaigns") ∧
    replaceInputValues
        ((js ("advertisers/")) ++ (placeholder (js ("advertiserId")) ++ (js ("/campaigns"))))
        [(js ("advertiserId"), JValue.str (js ("123")))] =
      (js ("advertisers/")) ++ ((js ("123")) ++ (js ("/campaigns"))) ∧
    replaceInputValues (js ("advertisers/$\x7badvertiserId\x7d/campaigns"))
        [(js ("campaignId"), JValue.str (js ("9")))] =
      js ("advertisers/$\x7badvertiserId\x7d/campaigns") :=
  ⟨c7_replaces_first_occurrence_leaves_rest.1
      [(js ("campaignId"), JValue.str (js ("9")))]
      [(js ("partnerId"), JValue.str (js ("7")))]
      (js ("advertisers/")) (js ("/campaigns")) (js ("advertiserId"))
      (JValue.str (js ("123"))) (by decide) (by decide) (by decide),
   c7_replaces_first_occurrence_leaves_rest.2.1 (js ("advertisers/")) (js ("/campaigns"))
      (js ("advertiserId")) (JValue.str (js ("123"))) (by decide) (by decide),
   c7_replaces_first_occurrence_leaves_rest.2.2
      (js ("advertisers/$\x7badvertiserId\x7d/campaigns"))
      [(js ("campaignId"), JValue.str (js ("9")))] (by decide)⟩

/-! ### C4: targeting-option reconciliation -/

/-- C4: with current assigned options `[A, B]` and desired options `[B, C]`
(pairwise distinct serialized forms), the computed bulk groups are exactly
one create-group, for `C`'s targeting type and containing only `C`, and one
delete-group, for `A`'s targeting type and containing only `A`'s
`assignedTargetingOptionId`; `B` appears in neither.  In general an option
survives into `difference(desired, current)` exactly when it is in `desired`
and no member of `current` has an equal `JSON.stringify` serialization. -/
theorem c4_reconcile_groups (a b c : JSObj)
    (hab : jsonStringifyObj a ≠ jsonStringifyObj b)
    (hac : jsonStringifyObj a ≠ jsonStringifyObj c)
    (hcb : jsonStringifyObj c ≠ jsonStringifyObj b) :
    createRequestsJS [b, c] [a, b] =
      [⟨objLookup c (js ("targetingType")), [c]⟩] ∧
    deleteRequestsJS [b, c] [a, b] =
      [⟨objLookup a (js ("targetingType")),
        [objLookup a (js ("assignedTargetingOptionId"))]⟩] ∧
    (∀ (desired current : List JSObj) (x : JSObj),
       x ∈ differenceJS desired current ↔
         x ∈ desired ∧ ∀ m ∈ current, jsonStringifyObj m ≠ jsonStringifyObj x) := by
  have h1 : (jsonStringifyObj a == jsonStringifyObj b) = false :=
    beq_eq_false_iff_ne.mpr hab
  have h2 : (jsonStringifyObj a == jsonStringifyObj c) = false :=
    beq_eq_false_iff_ne.mpr hac
  have h3 : (jsonStringifyObj b == jsonStringifyObj c) = false :=
    beq_eq_false_iff_ne.mpr (Ne.symm hcb)
  have h4 : (jsonStringifyObj b == jsonStringifyObj a) = false :=
    beq_eq_false_iff_ne.mpr (Ne.symm hab)
  have h5 : (jsonStringifyObj c == jsonStringifyObj a) = false :=
    beq_eq_false_iff_ne.mpr (Ne.symm hac)
  have hdiffc : differenceJS [b, c] [a, b] = [c] := by
    simp [differenceJS, isInJS, List.filter, h1, h2, h3]
  have hdiffd : differenceJS [a, b] [b, c] = [a] := by
    simp [differenceJS, isInJS, List.filter, h4, h5, h3]
  refine ⟨?_, ?_, ?_⟩
  · simp [createRequestsJS, hdiffc, collectUniqueTypes, dedupFirst, dedupFirstAux,
      List.filter, strictEq_refl]
  · simp [deleteRequestsJS, hdiffd, collectUniqueTypes, dedupFirst, dedupFirstAux,
      List.filter, strictEq_refl]
  · intro desired current x
    simp only [differenceJS, List.mem_filter, Bool.not_eq_eq_eq_not, Bool.not_true, isInJS,
      bne_eq_false_iff_eq, List.length_eq_zero, List.filter_eq_nil_iff, beq_iff_eq]

/-- C4 witness: three concrete assigned targeting options with pairwise
distinct serializations; reconciling current `[A, B]` with desired `[B, C]`
creates only `C` (under its type) and deletes only `A` (by id). -/
theorem c4_reconcile_groups_witness :
    createRequestsJS
        [[(js ("targetingType"), JValue.str (js ("TYPE_B"))),
          (js ("assignedTargetingOptionId"), JValue.str (js ("22")))],
         [(js ("targetingType"), JValue.str (js ("TYPE_C"))),
          (js ("assignedTargetingOptionId"), JValue.str (js ("33")))]]
        [[(js ("targetingType"), JValue.str (js ("TYPE_A"))),
          (js ("assignedTargetingOptionId"), JValue.str (js ("11")))],
         [(js ("targetingType"), JValue.str (js ("TYPE_B"))),
          (js ("assignedTargetingOptionId"), JValue.str (js ("22")))]] =
      [⟨JValue.str (js ("TYPE_C")),
        [[(js ("targetingType"), JValue.str (js ("TYPE_C"))),
          (js ("assignedTargetingOptionId"), JValue.str (js ("33")))]]⟩] ∧
    deleteRequestsJS
        [[(js ("targetingType"), JValue.str (js ("TYPE_B"))),
          (js ("assignedTargetingOptionId"), JValue.str (js ("22")))],
         [(js ("targetingType"), JValue.str (js ("TYPE_C"))),
          (js ("assignedTargetingOptionId"), JValue.str (js ("33")))]]
        [[(js ("targetingType"), JValue.str (js ("TYPE_A"))),
          (js ("assignedTargetingOptionId"), JValue.str (js ("11")))],
         [(js ("targetingType"), JValue.str (js ("TYPE_B"))),
          (js ("assignedTargetingOptionId"), JValue.str (js ("22")))]] =
      [⟨JValue.str (js ("TYPE_A")), [JValue.str (js ("11"))]⟩] :=
  ⟨(c4_reconcile_groups
      [(js ("targetingType"), JValue.str (js ("TYPE_A"))),
       (js ("assignedTargetingOptionId"), JValue.str (js ("11")))]
      [(js ("targetingType"), JValue.str (js ("TYPE_B"))),
       (js ("assignedTargetingOptionId"), JValue.str (js ("22")))]
      [(js ("targetingType"), JValue.str (js ("TYPE_C"))),
       (js ("assignedTargetingOptionId"), JValue.str (js ("33")))]
      (by decide) (by decide) (by decide)).1,
   (c4_reconcile_groups
      [(js ("targetingType"), JValue.str (js ("TYPE_A"))),
       (js ("assignedTargetingOptionId"), JValue.str (js ("11")))]
      [(js ("targetingType"), JValue.str (js ("TYPE_B"))),
       (js ("assignedTargetingOptionId"), JValue.str (js ("22")))]
      [(js ("targetingType"), JValue.str (js ("TYPE_C"))),
       (js ("assignedTargetingOptionId"), JValue.str (js ("33")))]
      (by decide) (by decide) (by decide)).2.1⟩

/-! ### C9: physical row removal -/

theorem keepAux_nil_ns (i : Nat) (sheet : List α) : keepAux ([] : List Nat) i sheet = sheet := by
  induction sheet generalizing i with
  | nil => rfl
  | cons x xs ih => simp [keepAux, ih]

theorem reindexFrom_succ_map (ns : List Nat) (i : Nat) :
    reindexFrom (i + 1) ns = reindexFrom i (ns.map (fun p => p - 1)) := by
  induction ns generalizing i with
  | nil => rfl
  | cons n ns ih =>
      simp only [reindexFrom, List.map_cons]
      refine congrArg₂ _ (by omega) (ih (i + 1))

theorem keepAux_shift (n : Nat) (ns : List Nat) (hns : ∀ m ∈ ns, n < m) (hn1 : 1 ≤ n)
    (xs : List α) (m : Nat) (hm : n ≤ m) :
    keepAux (n :: ns) (m + 1) xs = keepAux (ns.map (fun p => p - 1)) m xs := by
  induction xs generalizing m with
  | nil => rfl
  | cons x xs ih =>
      have hmem : ((m + 1) ∈ n :: ns) ↔ (m ∈ ns.map (fun p => p - 1)) := by
        simp only [List.mem_cons, List.mem_map]
        constructor
        · rintro (h | h)
          · omega
          · exact ⟨m + 1, h, by omega⟩
        · rintro ⟨p, hp, hpe⟩
          have hlt := hns p hp
          right
          have hpm : p = m + 1 := by omega
          rwa [← hpm]
      by_cases hin : (m + 1) ∈ n :: ns
      · simp only [keepAux]
        rw [if_pos hin, if_pos (hmem.mp hin)]
        exact ih (m + 1) (by omega)
      · simp only [keepAux]
        rw [if_neg hin, if_neg (fun hc => hin (hmem.mpr hc))]
        rw [ih (m + 1) (by omega)]

theorem keepAux_erase (n : Nat) (ns : List Nat) (hns : ∀ m ∈ ns, n < m) (hn1 : 1 ≤ n)
    (xs : List α) (i : Nat) (hi : i ≤ n) (hlen : n - i < xs.length) :
    keepAux (n :: ns) i xs = keepAux (ns.map (fun p => p - 1)) i (xs.eraseIdx (n - i)) := by
  induction xs generalizing i with
  | nil =>
      exact absurd hlen (by simp)
  | cons x xs ih =>
      by_cases hieq : i = n
      · subst hieq
        have hz : i - i = 0 := by omega
        rw [hz, List.eraseIdx_cons_zero]
        have hin : i ∈ i :: ns := List.mem_cons_self i ns
        simp only [keepAux]
        rw [if_pos hin]
        exact keepAux_shift i ns hns hn1 xs i (Nat.le_refl i)
      · have hilt : i < n := by omega
        have hnotl : i ∉ n :: ns := by
          simp only [List.mem_cons]
          rintro (h | h)
          · omega
          · exact absurd (hns i h) (by omega)
        have hnotr : i ∉ ns.map (fun p => p - 1) := by
          simp only [List.mem_map]
          rintro ⟨p, hp, hpe⟩
          have := hns p hp
          omega
        have hsub : n - i = (n - (i + 1)) + 1 := by omega
        rw [hsub, List.eraseIdx_cons_succ]
        simp only [keepAux]
        rw [if_neg hnotl, if_neg hnotr]
        rw [ih (i + 1) (by omega) (by simp at hlen; omega)]

theorem deleteSheetRows_removes_exactly (ns : List Nat) (sheet : List α)
    (hpw : List.Pairwise (· < ·) ns) (h1 : ∀ n ∈ ns, 1 ≤ n)
    (h2 : ∀ n ∈ ns, n ≤ sheet.length) :
    deleteSheetRowsJS sheet ns = keepRows sheet ns := by
  have key : ∀ (L : Nat) (ns : List Nat) (sheet : List α), ns.length = L →
      List.Pairwise (· < ·) ns → (∀ n ∈ ns, 1 ≤ n) → (∀ n ∈ ns, n ≤ sheet.length) →
      deleteSheetRowsJS sheet ns = keepRows sheet ns := by
    intro L
    induction L with
    | zero =>
        intro ns sheet hlen hpw h1 h2
        cases ns with
        | nil =>
            show sheet = keepRows sheet []
            rw [keepRows, keepAux_nil_ns]
        | cons n ns => simp at hlen
    | succ k ihk =>
        intro ns sheet hlen hpw h1 h2
        cases ns with
        | nil => simp at hlen
        | cons n ns =>
          have hpair := List.pairwise_cons.mp hpw
          have hn1 : 1 ≤ n := h1 n (List.mem_cons_self n ns)
          have hnlen : n ≤ sheet.length := h2 n (List.mem_cons_self n ns)
          have hstep : deleteSheetRowsJS sheet (n :: ns) =
              deleteSheetRowsJS (sheet.eraseIdx (n - 1)) (ns.map (fun p => p - 1)) := by
            unfold deleteSheetRowsJS deleteRowCalls
            simp only [reindexFrom]
            rw [reindexFrom_succ_map]
            rfl
          rw [hstep]
          rw [ihk (ns.map (fun p => p - 1)) (sheet.eraseIdx (n - 1))
            (by simpa using Nat.succ_injective hlen)
            (List.pairwise_map.mpr
              (List.Pairwise.imp_of_mem
                (fun ha hb hr => by
                  have := hpair.1 _ ha
                  omega) hpair.2))
            (by
              intro m hm
              rcases List.mem_map.mp hm with ⟨p, hp, hpe⟩
              have := hpair.1 p hp
              omega)
            (by
              intro m hm
              rcases List.mem_map.mp hm with ⟨p, hp, hpe⟩
              have hple := h2 p (List.mem_cons_of_mem n hp)
              have hplt := hpair.1 p hp
              rw [List.length_eraseIdx_of_lt (by omega)]
              omega)]
          exact (keepAux_erase n ns hpair.1 hn1 sheet 1 hn1 (by omega)).symm
  exact key ns.length ns sheet rfl hpw h1 h2

/-- C9 (counterexample): the claim states that the batched physical removals
are applied in DESCENDING row-index order.  `SheetUtil.deleteSheetRows`
instead walks the batch in its given (ascending) order, compensating each
call by the number of rows already removed: batching rows 5 and 7 issues
`deleteRow(5)` then `deleteRow(6)` — an ascending, not descending,
sequence. -/
theorem c9_counterexample_ascending_removal_order :
    deleteRowCalls [5, 7] = [5, 6] ∧
    List.Pairwise (· < ·) (deleteRowCalls [5, 7]) ∧
    ¬ List.Pairwise (fun a b => b < a) (deleteRowCalls [5, 7]) :=
  ⟨rfl, by decide, by decide⟩

/-- C9 (amended): physical removal of DELETE-classified rows is batched and
applied last; exactly the rows whose delete call succeeded are batched (one
row number `sheetIndex + rangeStartRow` each, in ascending row order), and
the batch is applied in ASCENDING order with each call's row number
decremented by the number of rows already removed, which removes exactly the
originally batched rows — no removal shifts a row still scheduled. -/
theorem c9_batched_removals_remove_exactly (sheet : List α) (succeeds : Nat → Bool)
    (sheetIndexes : List Nat) (rangeStartRow : Nat)
    (hsorted : List.Pairwise (· < ·) sheetIndexes)
    (hstart : 1 ≤ rangeStartRow)
    (hbound : ∀ i ∈ sheetIndexes, i + rangeStartRow ≤ sheet.length) :
    deleteEntriesJS succeeds sheetIndexes rangeStartRow sheet =
      keepRows sheet (deleteEntriesRowNumbers succeeds sheetIndexes rangeStartRow) := by
  unfold deleteEntriesJS
  apply deleteSheetRows_removes_exactly
  · exact List.pairwise_map.mpr
      (List.Pairwise.imp_of_mem (fun _ _ h => by omega) (hsorted.filter succeeds))
  · intro m hm
    simp only [deleteEntriesRowNumbers, List.mem_map] at hm
    rcases hm with ⟨i, hi, he⟩
    omega
  · intro m hm
    simp only [deleteEntriesRowNumbers, List.mem_map] at hm
    rcases hm with ⟨i, hi, he⟩
    have := hbound i (List.mem_of_mem_filter hi)
    omega

/-- C9 witness: four data rows starting at sheet row 1; rows with sheet
indexes 0, 1 and 3 are DELETE-classified, the delete call for index 1 throws;
exactly rows 1 and 4 are removed, leaving the second and third rows. -/
theorem c9_batched_removals_remove_exactly_witness :
    deleteEntriesJS (fun i => i != 1) [0, 1, 3] 1 [10, 20, 30, 40] =
      keepRows [10, 20, 30, 40] (deleteEntriesRowNumbers (fun i => i != 1) [0, 1, 3] 1) ∧
    deleteEntriesJS (fun i => i != 1) [0, 1, 3] 1 [10, 20, 30, 40] = [20, 30] :=
  ⟨c9_batched_removals_remove_exactly [10, 20, 30, 40] (fun i => i != 1) [0, 1, 3] 1
      (by decide) (by decide) (by decide),
   rfl⟩

/-- C3 witness: the patch mask of a concrete campaign against the identical
instance (all field values shared) is empty. -/
theorem c3_patch_mask_empty_of_shared_field_values_witness :
    getPatchMask
        [(js ("campaignId"), JValue.str (js ("1"))),
         (js ("campaignGoal"), JValue.obj 1 [(js ("campaignGoalType"), JValue.str (js ("G")))])]
        [(js ("campaignId"), JValue.str (js ("1"))),
         (js ("campaignGoal"), JValue.obj 1 [(js ("campaignGoalType"), JValue.str (js ("G")))])]
      = [] :=
  c3_patch_mask_empty_of_shared_field_values
    [(js ("campaignId"), JValue.str (js ("1"))),
     (js ("campaignGoal"), JValue.obj 1 [(js ("campaignGoalType"), JValue.str (js ("G")))])]
    [(js ("campaignId"), JValue.str (js ("1"))),
     (js ("campaignGoal"), JValue.obj 1 [(js ("campaignGoalType"), JValue.str (js ("G")))])]
    (fun _ => rfl)
